import Mathlib

set_option maxRecDepth 100000

/-!
# Verification of the cash-tracker-demo contracts

Shallow embedding of the Solidity contracts of the repository
(`Aggregator`, `SmartAccountFactory`, and the `SmartAccount`
authorization/validation core) and proofs of the specification's claims
about them.

Addresses and 256-bit machine words are modelled as `Nat` (with explicit
`% 2 ^ 160` / `% 2 ^ 256` truncation where the EVM truncates); byte
strings are `List Nat` with entries below 256; `keccak256` is an opaque
parameter of the model; reverting calls return `Except.error`, carrying
the revert reason string.  External reads performed on a token contract
are logged in a `ReadCall` trace so that "no read occurs before
validation fails" becomes a statement about the trace.
-/

namespace CashTracker

/-! ## ERC-20 chain state and the Aggregator contract

`Aggregator` (contracts/Aggregator.sol) is a stateless read-only batch
query contract.  The ERC-20 world it reads from is a pair of maps:
`balanceOf token account` and `allowance token owner spender`. -/

structure ChainState where
  balanceOf : Nat → Nat → Nat
  allowance : Nat → Nat → Nat → Nat

/-- One external read performed on a token contract. -/
inductive ReadCall where
  | balanceRead (token account : Nat)
  | allowanceRead (token owner spender : Nat)
deriving DecidableEq, Repr, Inhabited

/-- `Aggregator.BalanceData`. -/
structure BalanceData where
  account : Nat
  balance : Nat
deriving DecidableEq, Repr, Inhabited

/-- `Aggregator.AllowanceData`. -/
structure AllowanceData where
  owner : Nat
  spender : Nat
  allowance : Nat
deriving DecidableEq, Repr, Inhabited

/-- `Aggregator.AccountAllowances`. -/
structure AccountAllowances where
  account : Nat
  allowances : List AllowanceData
deriving DecidableEq, Repr, Inhabited

/-- `Aggregator.getBalances`: validates inputs with `require`, then loops
over `accounts` reading `balanceOf`.  Returns the result (or the revert
reason) together with the trace of token reads performed. -/
def getBalances (st : ChainState) (token : Nat) (accounts : List Nat) :
    Except String (List BalanceData) × List ReadCall :=
  if token = 0 then (.error "Invalid token address", [])
  else if accounts.length = 0 then (.error "No accounts provided", [])
  else
    ((Except.ok (accounts.map fun a =>
        { account := a, balance := st.balanceOf token a })),
     accounts.map fun a => ReadCall.balanceRead token a)

/-- The inner loop of `Aggregator.getAllowances` for the row of index
`i`: for every index `j ≠ i`, in increasing order of `j`, one
`AllowanceData` record read from the token.  The loop compares indices
(`i != j`), not address values, so duplicate addresses still get a row
entry. -/
def allowanceRow (st : ChainState) (token : Nat) (accounts : List Nat)
    (i : Nat) : List AllowanceData :=
  ((List.range accounts.length).filter fun j => i ≠ j).map fun j =>
    { owner := accounts.getD i 0, spender := accounts.getD j 0,
      allowance := st.allowance token (accounts.getD i 0) (accounts.getD j 0) }

/-- The token reads that the inner loop of `Aggregator.getAllowances`
performs for the row of index `i`. -/
def allowanceRowReads (token : Nat) (accounts : List Nat) (i : Nat) :
    List ReadCall :=
  ((List.range accounts.length).filter fun j => i ≠ j).map fun j =>
    ReadCall.allowanceRead token (accounts.getD i 0) (accounts.getD j 0)

/-- `Aggregator.getAllowances`: validates inputs, then queries the
allowance for every ordered pair of distinct indices. -/
def getAllowances (st : ChainState) (token : Nat) (accounts : List Nat) :
    Except String (List AccountAllowances) × List ReadCall :=
  if token = 0 then (.error "Invalid token address", [])
  else if accounts.length = 0 then (.error "No accounts provided", [])
  else
    ((Except.ok ((List.range accounts.length).map fun i =>
        { account := accounts.getD i 0,
          allowances := allowanceRow st token accounts i })),
     (List.range accounts.length).flatMap fun i =>
        allowanceRowReads token accounts i)

/-- `Aggregator.getSpecificAllowances`: validates the token, the length
match, and non-emptiness (in that order), then reads
`allowance(owners[i], spenders[i])` pairwise. -/
def getSpecificAllowances (st : ChainState) (token : Nat)
    (owners spenders : List Nat) :
    Except String (List AllowanceData) × List ReadCall :=
  if token = 0 then (.error "Invalid token address", [])
  else if owners.length ≠ spenders.length then
    (.error "Arrays length mismatch", [])
  else if owners.length = 0 then (.error "No addresses provided", [])
  else
    ((Except.ok (List.zipWith (fun o s =>
        { owner := o, spender := s, allowance := st.allowance token o s })
        owners spenders)),
     List.zipWith (fun o s => ReadCall.allowanceRead token o s)
        owners spenders)

/-- `Aggregator.getBalancesAndAllowances`: validates inputs once, then
runs the balance loop of `getBalances` followed by the all-pairs
allowance loop of `getAllowances` (the source repeats both loop bodies
verbatim). -/
def getBalancesAndAllowances (st : ChainState) (token : Nat)
    (accounts : List Nat) :
    Except String (List BalanceData × List AccountAllowances) × List ReadCall :=
  if token = 0 then (.error "Invalid token address", [])
  else if accounts.length = 0 then (.error "No accounts provided", [])
  else
    ((Except.ok
        ((accounts.map fun a =>
            { account := a, balance := st.balanceOf token a }),
         (List.range accounts.length).map fun i =>
            { account := accounts.getD i 0,
              allowances := allowanceRow st token accounts i })),
     (accounts.map fun a => ReadCall.balanceRead token a)
       ++ (List.range accounts.length).flatMap fun i =>
            allowanceRowReads token accounts i)

/-- The loop of `Aggregator.getMultiTokenBalances`: the
`require(tokens[i] != 0)` sits *inside* the loop, so a zero token is
only detected when its iteration is reached, after the reads of the
preceding iterations have already been performed. -/
def multiTokenLoop (st : ChainState) (account : Nat) :
    List Nat → Except String (List BalanceData) × List ReadCall
  | [] => (Except.ok [], [])
  | t :: ts =>
    if t = 0 then (.error "Invalid token address", [])
    else
      let rest := multiTokenLoop st account ts
      (rest.1.map fun bs =>
        { account := account, balance := st.balanceOf t account } :: bs,
       ReadCall.balanceRead t account :: rest.2)

/-- `Aggregator.getMultiTokenBalances`: validates non-emptiness and the
account address up front, then runs the per-token loop. -/
def getMultiTokenBalances (st : ChainState) (tokens : List Nat)
    (account : Nat) :
    Except String (List BalanceData) × List ReadCall :=
  if tokens.length = 0 then (.error "No tokens provided", [])
  else if account = 0 then (.error "Invalid account address", [])
  else multiTokenLoop st account tokens

/-! ## SmartAccountFactory and CREATE2 addressing

The factory (contracts/SmartAccountFactory.sol) predicts and deploys
`SmartAccount` instances deterministically.  `keccak256` is opaque, so
it is a parameter of the model, together with
`type(SmartAccount).creationCode` (the compiled bytecode, also opaque),
the factory's own address and the immutable `i_entryPoint`. -/

/-- Big-endian byte decomposition of `x` into `n` bytes (the low
`8 * n` bits of `x`). -/
def toBytesBE (n x : Nat) : List Nat :=
  (List.range n).map fun i => x / 256 ^ (n - 1 - i) % 256

/-- An `address` packed by `abi.encodePacked`: 20 bytes. -/
def addressBytes (a : Nat) : List Nat := toBytesBE 20 (a % 2 ^ 160)

/-- A `uint256` / `bytes32` word, as packed by `abi.encodePacked` or
padded by `abi.encode`: 32 bytes. -/
def wordBytes (x : Nat) : List Nat := toBytesBE 32 (x % 2 ^ 256)

/-- The immutable context of one deployed `SmartAccountFactory`:
the hash function, the `SmartAccount` creation bytecode, the factory's
own address (`address(this)`) and the entry point passed at
construction (`i_entryPoint`). -/
structure FactoryCtx where
  keccak : List Nat → Nat
  creationCode : List Nat
  factoryAddr : Nat
  entryPoint : Nat

/-- `keccak256(abi.encodePacked(owner, salt))`: the `salt_` computed by
both `getAddress` and `createAccount` (`owner` packs to 20 bytes,
`salt` to 32). -/
def deploymentSalt (C : FactoryCtx) (owner salt : Nat) : Nat :=
  C.keccak (addressBytes owner ++ wordBytes salt)

/-- The init-code whose hash `getAddress` uses:
`abi.encodePacked(type(SmartAccount).creationCode, abi.encode(address(i_entryPoint), owner))`
— creation bytecode followed by TWO abi-encoded constructor words. -/
def initCodePredicted (C : FactoryCtx) (owner : Nat) : List Nat :=
  C.creationCode ++ (wordBytes C.entryPoint ++ wordBytes owner)

/-- `SmartAccountFactory.getAddress`: the CREATE2 prediction
`keccak256(0xff ∥ address(this) ∥ salt_ ∥ keccak256(creationCode))`
truncated to a 160-bit address. -/
def getAddress (C : FactoryCtx) (owner salt : Nat) : Nat :=
  (C.keccak ([0xff] ++ addressBytes C.factoryAddr
      ++ wordBytes (deploymentSalt C owner salt)
      ++ wordBytes (C.keccak (initCodePredicted C owner)))) % 2 ^ 160

/-- EVM semantics of the CREATE2 opcode's address derivation:
`keccak256(0xff ∥ deployer ∥ salt ∥ keccak256(initCode))` truncated to
160 bits. -/
def create2Address (keccak : List Nat → Nat) (deployer saltWord : Nat)
    (initCode : List Nat) : Nat :=
  (keccak ([0xff] ++ addressBytes deployer ++ wordBytes saltWord
      ++ wordBytes (keccak initCode))) % 2 ^ 160

/-- The init-code the EVM actually runs for
`new SmartAccount{salt: salt_}(address(i_entryPoint))`: creation
bytecode followed by ONE abi-encoded constructor word (the factory's
`createAccount` passes only the entry point to the constructor). -/
def initCodeActual (C : FactoryCtx) : List Nat :=
  C.creationCode ++ wordBytes C.entryPoint

/-- The address at which `createAccount`'s `new SmartAccount{salt: salt_}`
statement actually deploys, by the CREATE2 rule. -/
def actualDeployAddress (C : FactoryCtx) (owner salt : Nat) : Nat :=
  create2Address C.keccak C.factoryAddr (deploymentSalt C owner salt)
    (initCodeActual C)

/-- The `SmartAccountCreated(owner, smartAccount)` event. -/
inductive FactoryEvent where
  | SmartAccountCreated (owner smartAccount : Nat)
deriving DecidableEq, Repr

/-- `SmartAccountFactory.createAccount` over a chain state reduced to
the code-presence map `hasCode`.  It first computes the predicted
address and returns it unchanged (no deploy, no event) if code already
sits there; otherwise it executes CREATE2, which the EVM makes fail
when the *actual* target address already has code (Solidity's `new`
then reverts, modelled as the "create2 collision" error); on success
the `require(smartAccount != address(0))` guard runs and the
`SmartAccountCreated` event is emitted. -/
def createAccount (C : FactoryCtx) (hasCode : Nat → Bool)
    (owner salt : Nat) :
    Except String ((Nat → Bool) × Nat × List FactoryEvent) :=
  let smartAccount := getAddress C owner salt
  if hasCode smartAccount then Except.ok (hasCode, smartAccount, [])
  else
    let deployed := actualDeployAddress C owner salt
    if hasCode deployed then Except.error "create2 collision"
    else
      let hasCode2 : Nat → Bool := fun a => a == deployed || hasCode a
      if deployed = 0 then Except.error "SmartAccountFactory: create2 failed"
      else Except.ok (hasCode2, deployed,
        [FactoryEvent.SmartAccountCreated owner deployed])

/-- The address a successful `createAccount` call returns. -/
def createdAddress
    (r : Except String ((Nat → Bool) × Nat × List FactoryEvent)) :
    Option Nat :=
  match r with
  | Except.ok v => some v.2.1
  | Except.error _ => none

/-- The events a successful `createAccount` call emits. -/
def createdEvents
    (r : Except String ((Nat → Bool) × Nat × List FactoryEvent)) :
    Option (List FactoryEvent) :=
  match r with
  | Except.ok v => some v.2.2
  | Except.error _ => none

/-- The chain state after a `createAccount` call (a revert leaves the
state unchanged). -/
def stateAfterCreate (hasCode : Nat → Bool)
    (r : Except String ((Nat → Bool) × Nat × List FactoryEvent)) :
    Nat → Bool :=
  match r with
  | Except.ok v => v.1
  | Except.error _ => hasCode

/-- Modelled from the spec (§4.2): the two-stage derivation the spec
prescribes for `getAddress` — `deploymentSalt = hash(owner ∥ salt)`,
then `hash(0xff ∥ factoryAddress ∥ deploymentSalt ∥ hash(creationCode ∥
encodedConstructorArgs))`, truncated to an address. -/
def getAddressSpec (C : FactoryCtx) (owner salt : Nat) : Nat :=
  let specSalt := C.keccak (addressBytes owner ++ wordBytes salt)
  let codeHash :=
    C.keccak (C.creationCode ++ (wordBytes C.entryPoint ++ wordBytes owner))
  (C.keccak ([0xff] ++ addressBytes C.factoryAddr ++ wordBytes specSalt
      ++ wordBytes codeHash)) % 2 ^ 160

/-- A concrete, collision-free stand-in for `keccak256` used to
evaluate the factory model on explicit inputs: the byte list read as a
base-256 numeral with a leading `1` sentinel (injective on byte
lists). -/
def demoHash (bs : List Nat) : Nat :=
  bs.foldl (fun h b => h * 256 + b % 256) 1

/-- A concrete factory context for evaluating the model. -/
def demoCtx : FactoryCtx :=
  { keccak := demoHash, creationCode := [1, 2, 3],
    factoryAddr := 900, entryPoint := 901 }

/-! ## SmartAccount (authorization and validation core)

`SmartAccount.sol` itself is not among the provided source files — only
its factory, its tests and its callers are — so the account is modelled
from the spec (§4.1), as the spec directs for the authorization and
validation behaviour. -/

/-- Modelled from the spec: `SmartAccount.sol` is missing from the
sources; spec §3 gives the account's state — immutable `owner` and
`entryPoint`, a sequential `nonce` for replay protection, plus the
native balance used to pay prefunds. -/
structure SmartAccount where
  owner : Nat
  entryPoint : Nat
  nonce : Nat
  balance : Nat
deriving DecidableEq, Repr

/-- The distinguished, inspectable outcomes of `SmartAccount.execute`:
the named authorization error (asserted on by the tests via
`revertedWithCustomError(..., "SmartAccount__NotFromEntryPointOrOwner")`)
is a distinct constructor from a propagated target revert. -/
inductive ExecError where
  | SmartAccount__NotFromEntryPointOrOwner
  | targetReverted (reason : String)
deriving DecidableEq, Repr

/-- Modelled from the spec: `SmartAccount.execute` (spec §4.1) over an
abstract world state `σ` with call semantics `call`.  Precondition:
the caller is `owner` or `entryPoint`; otherwise the call reverts with
the named `SmartAccount__NotFromEntryPointOrOwner` error.  When
authorized, it performs the low-level call and propagates the callee's
revert reason verbatim. -/
def SmartAccount.execute {σ : Type}
    (call : σ → Nat → Nat → List Nat → Except String (σ × List Nat))
    (acct : SmartAccount) (caller : Nat) (w : σ)
    (target value : Nat) (data : List Nat) :
    Except ExecError (σ × List Nat) :=
  if caller ≠ acct.entryPoint ∧ caller ≠ acct.owner then
    Except.error ExecError.SmartAccount__NotFromEntryPointOrOwner
  else
    match call w target value data with
    | Except.error r => Except.error (ExecError.targetReverted r)
    | Except.ok res => Except.ok res

/-- The world state after an `execute` call: a revert (EVM atomic
rollback) leaves the state as it was. -/
def SmartAccount.executeFinalState {σ : Type}
    (call : σ → Nat → Nat → List Nat → Except String (σ × List Nat))
    (acct : SmartAccount) (caller : Nat) (w : σ)
    (target value : Nat) (data : List Nat) : σ :=
  match SmartAccount.execute call acct caller w target value data with
  | Except.ok res => res.1
  | Except.error _ => w

/-- Modelled from the spec: the `UserOperation` fields the validation
path consumes (spec §3) — the rest of the wire format (gas fields,
`initCode`, `paymasterAndData`) does not influence validation in the
model.  The signature is an abstract value interpreted by `recover`. -/
structure UserOperation where
  sender : Nat
  nonce : Nat
  callData : List Nat
  signature : Nat
deriving DecidableEq, Repr

/-- Modelled from the spec: `SmartAccount.validateUserOp` (spec §4.1) —
recovers the signer of `userOpHash` from the signature via the abstract
`recover`; if the signer is not `owner` or the operation's nonce is not
the account's current nonce, it returns the nonzero status `1` without
reverting and without touching the account; otherwise it advances the
nonce, pays the requested `missingAccountFunds` out of the balance, and
returns status `0`; it reverts only when the balance cannot cover the
requested prefund. -/
def SmartAccount.validateUserOp (recover : Nat → Nat → Nat)
    (acct : SmartAccount) (op : UserOperation)
    (userOpHash missingAccountFunds : Nat) :
    Except String (SmartAccount × Nat) :=
  if recover userOpHash op.signature ≠ acct.owner ∨ op.nonce ≠ acct.nonce then
    Except.ok (acct, 1)
  else if acct.balance < missingAccountFunds then
    Except.error "insufficient funds for prefund"
  else
    Except.ok
      ({ acct with
          nonce := acct.nonce + 1
          balance := acct.balance - missingAccountFunds }, 0)

/-- A concrete ERC-20 chain state realizing the spec's Aggregator test
scenario: token `7` with balances `100/200/300` for accounts `1/2/3`,
and account `1` approving `2` for `50` units. -/
def demoChain : ChainState :=
  { balanceOf := fun t a =>
      if t = 7 then
        if a = 1 then 100 else if a = 2 then 200 else if a = 3 then 300 else 0
      else 0
    allowance := fun t o s => if t = 7 ∧ o = 1 ∧ s = 2 then 50 else 0 }

/-! ## Helper lemmas on lists -/

theorem getD_map_of_lt {α β : Type} (f : α → β) (l : List α) (i : Nat)
    (d : β) (d0 : α) (h : i < l.length) :
    (l.map f).getD i d = f (l.getD i d0) := by
  rw [List.getD_eq_getElem?_getD, List.getD_eq_getElem?_getD,
    List.getElem?_map, List.getElem?_eq_getElem h]
  rfl

theorem getD_zipWith_of_lt {α β γ : Type} (f : α → β → γ)
    (l1 : List α) (l2 : List β) (i : Nat) (d : γ) (d1 : α) (d2 : β)
    (h1 : i < l1.length) (h2 : i < l2.length) :
    (List.zipWith f l1 l2).getD i d = f (l1.getD i d1) (l2.getD i d2) := by
  rw [List.getD_eq_getElem?_getD, List.getD_eq_getElem?_getD,
    List.getD_eq_getElem?_getD, List.getElem?_zipWith,
    List.getElem?_eq_getElem h1, List.getElem?_eq_getElem h2]
  rfl

theorem getD_range_of_lt (n i d : Nat) (h : i < n) :
    (List.range n).getD i d = i := by
  rw [List.getD_eq_getElem?_getD,
    List.getElem?_eq_getElem (by simpa using h)]
  simp

/-- Removing one index from `range n` leaves `n - 1` indices. -/
theorem length_filter_ne_range (n i : Nat) (h : i < n) :
    ((List.range n).filter fun j => i ≠ j).length = n - 1 := by
  induction n with
  | zero => exact absurd h (Nat.not_lt_zero i)
  | succ n ih =>
    rw [List.range_succ, List.filter_append]
    rcases Nat.lt_succ_iff_lt_or_eq.mp h with h1 | h1
    · rw [List.length_append, ih h1]
      have : i ≠ n := Nat.ne_of_lt h1
      simp [this]
      omega
    · subst h1
      have hall : (List.range i).filter (fun j => i ≠ j) = List.range i := by
        apply List.filter_eq_self.mpr
        intro a ha
        have : a < i := List.mem_range.mp ha
        simp [Nat.ne_of_gt this]
      rw [hall]
      simp

theorem sum_const_range (n c : Nat) :
    (((List.range n).map fun _ => c)).sum = n * c := by
  induction n with
  | zero => simp
  | succ n ih =>
    rw [List.range_succ]
    simp [ih, Nat.succ_mul]

/-- A zero token anywhere in the list makes `multiTokenLoop` revert. -/
theorem multiTokenLoop_error_of_zero (st : ChainState) (account : Nat)
    (ts : List Nat) (h : 0 ∈ ts) :
    ∃ e, (multiTokenLoop st account ts).1 = Except.error e := by
  induction ts with
  | nil => cases h
  | cons t ts ih =>
    by_cases ht : t = 0
    · exact ⟨"Invalid token address", by simp [multiTokenLoop, ht]⟩
    · have hm : 0 ∈ ts := by
        rcases List.mem_cons.mp h with h1 | h1
        · exact absurd h1.symm ht
        · exact h1
      obtain ⟨e, he⟩ := ih hm
      refine ⟨e, ?_⟩
      simp [multiTokenLoop, ht]
      rw [he]
      rfl

/-! ## Claims about the factory -/

/-- C1: the claim says `getAddress(owner, salt)` is stable across
`createAccount(owner, salt)` and that the address actually deployed by
`createAccount` equals the prediction.  The first half holds trivially
(`getAddress` reads no mutable state), but the second fails on the
code: `getAddress` hashes the creation code extended with TWO abi
words (`abi.encode(address(i_entryPoint), owner)`), while the
`new SmartAccount{salt: salt_}(address(i_entryPoint))` statement in
`createAccount` runs init-code with ONE constructor word, so CREATE2
places the account at a different address than predicted.  Evaluated
at owner `4`, salt `5` in the concrete context `demoCtx`: the deployed
address differs from the predicted one. -/
theorem createAccount_address_differs_from_prediction :
    createdAddress (createAccount demoCtx (fun _ => false) 4 5)
        = some (actualDeployAddress demoCtx 4 5) ∧
      actualDeployAddress demoCtx 4 5 ≠ getAddress demoCtx 4 5 ∧
      initCodePredicted demoCtx 4 ≠ initCodeActual demoCtx := by
  refine ⟨rfl, by decide, by decide⟩

/-- C3: the claim says `createAccount` is idempotent.  On the code it
is not: the existence check probes the *predicted* address, but the
deployment lands at the *actual* CREATE2 address of the one-argument
init-code, so the second call with the same `(owner, salt)` does not
see the deployed code at the predicted address, attempts to redeploy
with the same salt and init-code, and reverts on the CREATE2
collision.  Evaluated at owner `4`, salt `5` in `demoCtx`. -/
theorem createAccount_second_call_reverts :
    createdAddress (createAccount demoCtx (fun _ => false) 4 5)
        = some (actualDeployAddress demoCtx 4 5) ∧
      createAccount demoCtx
          (stateAfterCreate (fun _ => false)
            (createAccount demoCtx (fun _ => false) 4 5)) 4 5
        = Except.error "create2 collision" := by
  exact ⟨rfl, rfl⟩

/-- C4: `getAddress` is a pure function of the factory context (its own
address, entry point, creation code, hash) and of `(owner, salt)`, and
it computes exactly the spec's two-stage derivation: a deployment salt
`keccak256(owner ∥ salt)`, then
`keccak256(0xff ∥ factory ∥ deploymentSalt ∥ keccak256(creationCode ∥ encodedConstructorArgs))`
truncated to 160 bits. -/
theorem getAddress_matches_spec_derivation (C : FactoryCtx)
    (owner salt : Nat) :
    getAddress C owner salt = getAddressSpec C owner salt := by
  simp [getAddress, getAddressSpec, deploymentSalt, initCodePredicted]

/-! ## Claims about the SmartAccount core (modelled from the spec) -/

/-- C2: any caller that is neither the owner nor the entry point gets
the named `SmartAccount__NotFromEntryPointOrOwner` error (a
distinguished constructor, not a generic revert), and the world state
is left unchanged. -/
theorem execute_rejects_unauthorized_caller {σ : Type}
    (call : σ → Nat → Nat → List Nat → Except String (σ × List Nat))
    (acct : SmartAccount) (caller : Nat) (w : σ) (target value : Nat)
    (data : List Nat)
    (hO : caller ≠ acct.owner) (hE : caller ≠ acct.entryPoint) :
    SmartAccount.execute call acct caller w target value data
        = Except.error ExecError.SmartAccount__NotFromEntryPointOrOwner ∧
      SmartAccount.executeFinalState call acct caller w target value data
        = w := by
  have hcond : caller ≠ acct.entryPoint ∧ caller ≠ acct.owner := ⟨hE, hO⟩
  constructor
  · simp [SmartAccount.execute, hcond]
  · simp [SmartAccount.executeFinalState, SmartAccount.execute, hcond]

/-- Witness for C2: caller `3` against an account owned by `1` with
entry point `2`, over a world state `7 : Nat` whose calls would
succeed. -/
theorem execute_rejects_unauthorized_caller_witness :
    (3 : Nat) ≠ (1 : Nat) ∧ (3 : Nat) ≠ (2 : Nat) ∧
      (SmartAccount.execute
            (fun (w : Nat) _ _ _ => Except.ok (w + 1, ([] : List Nat)))
            ⟨1, 2, 0, 0⟩ 3 7 5 0 []
          = Except.error ExecError.SmartAccount__NotFromEntryPointOrOwner ∧
        SmartAccount.executeFinalState
            (fun (w : Nat) _ _ _ => Except.ok (w + 1, ([] : List Nat)))
            ⟨1, 2, 0, 0⟩ 3 7 5 0 []
          = 7) :=
  ⟨by decide, by decide,
    execute_rejects_unauthorized_caller
      (fun (w : Nat) _ _ _ => Except.ok (w + 1, ([] : List Nat)))
      ⟨1, 2, 0, 0⟩ 3 7 5 0 [] (by decide) (by decide)⟩

/-- C5: a validly signed operation carrying the account's current nonce
is accepted (status `0`) and the nonce advances; afterwards any
operation carrying the same nonce — in particular the same signed
operation resubmitted — can no longer be accepted. -/
theorem validateUserOp_replay_prevention
    (recover : Nat → Nat → Nat) (acct : SmartAccount)
    (op op2 : UserOperation) (h h2 mf mf2 : Nat)
    (hsig : recover h op.signature = acct.owner)
    (hn : op.nonce = acct.nonce) (hb : mf ≤ acct.balance) :
    ∃ acct2,
      SmartAccount.validateUserOp recover acct op h mf
          = Except.ok (acct2, 0) ∧
        acct2.nonce = acct.nonce + 1 ∧
        (op2.nonce = op.nonce →
          ∀ s, SmartAccount.validateUserOp recover acct2 op2 h2 mf2
            ≠ Except.ok (s, 0)) := by
  have hcond : ¬(recover h op.signature ≠ acct.owner ∨ op.nonce ≠ acct.nonce) := by
    push_neg
    exact ⟨hsig, hn⟩
  refine ⟨{ acct with nonce := acct.nonce + 1, balance := acct.balance - mf },
    ?_, rfl, ?_⟩
  · rw [SmartAccount.validateUserOp, if_neg hcond, if_neg (Nat.not_lt.mpr hb)]
  · intro hop2 s heq
    have hnn : op2.nonce ≠ acct.nonce + 1 := by omega
    rw [SmartAccount.validateUserOp] at heq
    simp [hnn] at heq

/-- Witness for C5: owner `1`, entry point `9`, nonce `0`, balance
`100`; the signature is interpreted by a `recover` that returns it
verbatim, so signature `1` is valid; prefund request `5`. -/
theorem validateUserOp_replay_prevention_witness :
    (fun (_ s : Nat) => s) 0 (UserOperation.mk 10 0 [] 1).signature
          = (SmartAccount.mk 1 9 0 100).owner ∧
      (UserOperation.mk 10 0 [] 1).nonce = (SmartAccount.mk 1 9 0 100).nonce ∧
      5 ≤ (SmartAccount.mk 1 9 0 100).balance ∧
      (∃ acct2,
        SmartAccount.validateUserOp (fun (_ s : Nat) => s)
            (SmartAccount.mk 1 9 0 100) (UserOperation.mk 10 0 [] 1) 0 5
            = Except.ok (acct2, 0) ∧
          acct2.nonce = (SmartAccount.mk 1 9 0 100).nonce + 1 ∧
          ((UserOperation.mk 10 0 [] 1).nonce = (UserOperation.mk 10 0 [] 1).nonce →
            ∀ s, SmartAccount.validateUserOp (fun (_ s : Nat) => s)
                acct2 (UserOperation.mk 10 0 [] 1) 0 5
              ≠ Except.ok (s, 0))) :=
  ⟨by decide, by decide, by decide,
    validateUserOp_replay_prevention (fun (_ s : Nat) => s)
      (SmartAccount.mk 1 9 0 100) (UserOperation.mk 10 0 [] 1)
      (UserOperation.mk 10 0 [] 1) 0 0 5 5
      (by decide) (by decide) (by decide)⟩

/-- C6: `validateUserOp` signals ordinary validation failure (bad
signature or wrong nonce) with the nonzero status `1`, not a revert,
leaving the account — its nonce in particular — unchanged; it returns
status `0` on success; and it reverts exactly when the balance cannot
cover the requested prefund. -/
theorem validateUserOp_status_policy
    (recover : Nat → Nat → Nat) (acct : SmartAccount)
    (op : UserOperation) (h mf : Nat) :
    ((recover h op.signature ≠ acct.owner ∨ op.nonce ≠ acct.nonce) →
        SmartAccount.validateUserOp recover acct op h mf
          = Except.ok (acct, 1)) ∧
      (recover h op.signature = acct.owner → op.nonce = acct.nonce →
        mf ≤ acct.balance →
        SmartAccount.validateUserOp recover acct op h mf
          = Except.ok
              ({ acct with
                  nonce := acct.nonce + 1
                  balance := acct.balance - mf }, 0)) ∧
      (recover h op.signature = acct.owner → op.nonce = acct.nonce →
        acct.balance < mf →
        SmartAccount.validateUserOp recover acct op h mf
          = Except.error "insufficient funds for prefund") ∧
      (∀ e, SmartAccount.validateUserOp recover acct op h mf
          = Except.error e → acct.balance < mf) := by
  refine ⟨?_, ?_, ?_, ?_⟩
  · intro hcond
    rw [SmartAccount.validateUserOp, if_pos hcond]
  · intro hsig hn hb
    have hcond : ¬(recover h op.signature ≠ acct.owner ∨ op.nonce ≠ acct.nonce) := by
      push_neg
      exact ⟨hsig, hn⟩
    rw [SmartAccount.validateUserOp, if_neg hcond, if_neg (Nat.not_lt.mpr hb)]
  · intro hsig hn hb
    have hcond : ¬(recover h op.signature ≠ acct.owner ∨ op.nonce ≠ acct.nonce) := by
      push_neg
      exact ⟨hsig, hn⟩
    rw [SmartAccount.validateUserOp, if_neg hcond, if_pos hb]
  · intro e he
    by_cases hcond : recover h op.signature ≠ acct.owner ∨ op.nonce ≠ acct.nonce
    · rw [SmartAccount.validateUserOp, if_pos hcond] at he
      cases he
    · by_cases hb : acct.balance < mf
      · exact hb
      · rw [SmartAccount.validateUserOp, if_neg hcond, if_neg hb] at he
        cases he

/-- Witness for C6: a bad signature (recovered signer `0` against
owner `1`) yields the non-reverting status `1` with the account
untouched. -/
theorem validateUserOp_status_policy_witness :
    ((fun (_ _ : Nat) => 0) 0 (UserOperation.mk 10 0 [] 1).signature
          ≠ (SmartAccount.mk 1 9 0 100).owner ∨
        (UserOperation.mk 10 0 [] 1).nonce ≠ (SmartAccount.mk 1 9 0 100).nonce) ∧
      SmartAccount.validateUserOp (fun (_ _ : Nat) => 0)
          (SmartAccount.mk 1 9 0 100) (UserOperation.mk 10 0 [] 1) 0 5
        = Except.ok (SmartAccount.mk 1 9 0 100, 1) :=
  ⟨Or.inl (by decide),
    (validateUserOp_status_policy (fun (_ _ : Nat) => 0)
        (SmartAccount.mk 1 9 0 100) (UserOperation.mk 10 0 [] 1) 0 5).1
      (Or.inl (by decide))⟩

/-! ## Claims about the Aggregator -/

/-- C7: for a non-zero token and non-empty inputs, `getBalances`
returns one entry per account, entry `i` pairing `accounts[i]` with its
balance, in input order; and `getSpecificAllowances` returns entry `i`
as `(owners[i], spenders[i], allowance(owners[i], spenders[i]))`, in
input order. -/
theorem getBalances_getSpecificAllowances_pointwise
    (st : ChainState) (token : Nat)
    (accounts owners spenders : List Nat)
    (htok : token ≠ 0) (hacc : accounts ≠ [])
    (hown : owners ≠ []) (hlen : owners.length = spenders.length) :
    (∃ bs, (getBalances st token accounts).1 = Except.ok bs ∧
      bs.length = accounts.length ∧
      ∀ i, i < accounts.length →
        bs.getD i default
          = { account := accounts.getD i 0,
              balance := st.balanceOf token (accounts.getD i 0) }) ∧
    (∃ ads, (getSpecificAllowances st token owners spenders).1
        = Except.ok ads ∧
      ads.length = owners.length ∧
      ∀ i, i < owners.length →
        ads.getD i default
          = { owner := owners.getD i 0, spender := spenders.getD i 0,
              allowance := st.allowance token (owners.getD i 0)
                (spenders.getD i 0) }) := by
  have hacc0 : accounts.length ≠ 0 := by
    simpa [List.length_eq_zero] using hacc
  have hown0 : owners.length ≠ 0 := by
    simpa [List.length_eq_zero] using hown
  constructor
  · refine ⟨accounts.map fun a =>
        { account := a, balance := st.balanceOf token a }, ?_, ?_, ?_⟩
    · simp [getBalances, htok, hacc0]
    · simp
    · intro i hi
      exact getD_map_of_lt _ accounts i default 0 hi
  · refine ⟨List.zipWith (fun o s =>
        { owner := o, spender := s, allowance := st.allowance token o s })
        owners spenders, ?_, ?_, ?_⟩
    · have hsp : spenders ≠ [] := by
        intro h0
        rw [h0] at hlen
        exact hown (List.length_eq_zero.mp hlen)
      simp [getSpecificAllowances, htok, hown0, hlen, hsp]
    · simp [hlen]
    · intro i hi
      exact getD_zipWith_of_lt _ owners spenders i default 0 0 hi (hlen ▸ hi)

/-- Witness for C7: the spec's Aggregator scenario on `demoChain`:
balances `100/200/300` for accounts `1/2/3` on token `7`, and the
`(1,2) ↦ 50` allowance. -/
theorem getBalances_getSpecificAllowances_pointwise_witness :
    (7 : Nat) ≠ 0 ∧ ([1, 2, 3] : List Nat) ≠ [] ∧
      ([1] : List Nat) ≠ [] ∧
      ([1] : List Nat).length = ([2] : List Nat).length ∧
      ((∃ bs, (getBalances demoChain 7 [1, 2, 3]).1 = Except.ok bs ∧
        bs.length = ([1, 2, 3] : List Nat).length ∧
        ∀ i, i < ([1, 2, 3] : List Nat).length →
          bs.getD i default
            = { account := ([1, 2, 3] : List Nat).getD i 0,
                balance := demoChain.balanceOf 7
                  (([1, 2, 3] : List Nat).getD i 0) }) ∧
      (∃ ads, (getSpecificAllowances demoChain 7 [1] [2]).1
          = Except.ok ads ∧
        ads.length = ([1] : List Nat).length ∧
        ∀ i, i < ([1] : List Nat).length →
          ads.getD i default
            = { owner := ([1] : List Nat).getD i 0,
                spender := ([2] : List Nat).getD i 0,
                allowance := demoChain.allowance 7
                  (([1] : List Nat).getD i 0)
                  (([2] : List Nat).getD i 0) })) :=
  ⟨by decide, by decide, by decide, by decide,
    getBalances_getSpecificAllowances_pointwise demoChain 7 [1, 2, 3] [1] [2]
      (by decide) (by decide) (by decide) (by decide)⟩

/-- C8 counterexample: `getMultiTokenBalances` validates each token
address only inside its loop iteration, so on input `[7, 0]` the zero
token address is rejected only *after* a `balanceOf` read on token `7`
has been performed — falsifying "no read is performed on the token
contract when input validation fails". -/
theorem getMultiTokenBalances_reads_before_rejecting :
    (getMultiTokenBalances demoChain [7, 0] 1).1
        = Except.error "Invalid token address" ∧
      (getMultiTokenBalances demoChain [7, 0] 1).2
        = [ReadCall.balanceRead 7 1] ∧
      (getMultiTokenBalances demoChain [7, 0] 1).2 ≠ [] := by
  refine ⟨rfl, rfl, by decide⟩

/-- C8 (amended): `getBalances`, `getAllowances`,
`getSpecificAllowances` and `getBalancesAndAllowances` reject a zero
token address, an empty array, or mismatched owners/spenders lengths
with a distinguishable failure before any token read (their read
traces are empty); `getMultiTokenBalances` rejects an empty token list
or a zero account before any read, and rejects a zero token address
wherever it appears in the list — but only once its loop iteration is
reached, so reads on the preceding tokens may already have occurred. -/
theorem aggregator_validation_before_reads
    (st : ChainState) (token account : Nat)
    (tokens accounts owners spenders : List Nat) :
    ((token = 0 ∨ accounts = []) →
        (∃ e, (getBalances st token accounts).1 = Except.error e) ∧
          (getBalances st token accounts).2 = []) ∧
      ((token = 0 ∨ accounts = []) →
        (∃ e, (getAllowances st token accounts).1 = Except.error e) ∧
          (getAllowances st token accounts).2 = []) ∧
      ((token = 0 ∨ owners.length ≠ spenders.length ∨ owners = []) →
        (∃ e, (getSpecificAllowances st token owners spenders).1
            = Except.error e) ∧
          (getSpecificAllowances st token owners spenders).2 = []) ∧
      ((token = 0 ∨ accounts = []) →
        (∃ e, (getBalancesAndAllowances st token accounts).1
            = Except.error e) ∧
          (getBalancesAndAllowances st token accounts).2 = []) ∧
      ((tokens = [] ∨ account = 0) →
        (∃ e, (getMultiTokenBalances st tokens account).1
            = Except.error e) ∧
          (getMultiTokenBalances st tokens account).2 = []) ∧
      (0 ∈ tokens →
        ∃ e, (getMultiTokenBalances st tokens account).1
          = Except.error e) := by
  refine ⟨?_, ?_, ?_, ?_, ?_, ?_⟩
  · rintro (h | h)
    · exact ⟨⟨"Invalid token address", by simp [getBalances, h]⟩,
        by simp [getBalances, h]⟩
    · by_cases ht : token = 0
      · exact ⟨⟨"Invalid token address", by simp [getBalances, ht]⟩,
          by simp [getBalances, ht]⟩
      · exact ⟨⟨"No accounts provided", by simp [getBalances, ht, h]⟩,
          by simp [getBalances, ht, h]⟩
  · rintro (h | h)
    · exact ⟨⟨"Invalid token address", by simp [getAllowances, h]⟩,
        by simp [getAllowances, h]⟩
    · by_cases ht : token = 0
      · exact ⟨⟨"Invalid token address", by simp [getAllowances, ht]⟩,
          by simp [getAllowances, ht]⟩
      · exact ⟨⟨"No accounts provided", by simp [getAllowances, ht, h]⟩,
          by simp [getAllowances, ht, h]⟩
  · intro h
    by_cases ht : token = 0
    · exact ⟨⟨"Invalid token address", by simp [getSpecificAllowances, ht]⟩,
        by simp [getSpecificAllowances, ht]⟩
    · by_cases hl : owners.length = spenders.length
      · have hw : owners = [] := by tauto
        subst hw
        exact ⟨⟨"No addresses provided",
            by simp [getSpecificAllowances, ht, ← hl]⟩,
          by simp [getSpecificAllowances, ht, ← hl]⟩
      · exact ⟨⟨"Arrays length mismatch",
            by simp [getSpecificAllowances, ht, hl]⟩,
          by simp [getSpecificAllowances, ht, hl]⟩
  · rintro (h | h)
    · exact ⟨⟨"Invalid token address", by simp [getBalancesAndAllowances, h]⟩,
        by simp [getBalancesAndAllowances, h]⟩
    · by_cases ht : token = 0
      · exact ⟨⟨"Invalid token address",
            by simp [getBalancesAndAllowances, ht]⟩,
          by simp [getBalancesAndAllowances, ht]⟩
      · exact ⟨⟨"No accounts provided",
            by simp [getBalancesAndAllowances, ht, h]⟩,
          by simp [getBalancesAndAllowances, ht, h]⟩
  · rintro (h | h)
    · exact ⟨⟨"No tokens provided", by simp [getMultiTokenBalances, h]⟩,
        by simp [getMultiTokenBalances, h]⟩
    · by_cases hts : tokens.length = 0
      · exact ⟨⟨"No tokens provided", by simp [getMultiTokenBalances, hts]⟩,
          by simp [getMultiTokenBalances, hts]⟩
      · exact ⟨⟨"Invalid account address",
            by simp [getMultiTokenBalances, hts, h]⟩,
          by simp [getMultiTokenBalances, hts, h]⟩
  · intro hmem
    have hts : tokens.length ≠ 0 := by
      intro h0
      rw [List.length_eq_zero] at h0
      subst h0
      cases hmem
    by_cases ha : account = 0
    · exact ⟨"Invalid account address",
        by simp [getMultiTokenBalances, hts, ha]⟩
    · obtain ⟨e, he⟩ := multiTokenLoop_error_of_zero st account tokens hmem
      exact ⟨e, by simp [getMultiTokenBalances, hts, ha, he]⟩

/-- Witness for C8 (amended): a zero token address given to
`getBalances` fails with an error and an empty read trace. -/
theorem aggregator_validation_before_reads_witness :
    ((0 : Nat) = 0 ∨ ([1] : List Nat) = []) ∧
      ((∃ e, (getBalances demoChain 0 [1]).1 = Except.error e) ∧
        (getBalances demoChain 0 [1]).2 = []) :=
  ⟨Or.inl rfl,
    (aggregator_validation_before_reads demoChain 0 1 [] [1] [] []).1
      (Or.inl rfl)⟩

/-- C9: for a non-zero token and a non-empty list of `n` accounts,
`getAllowances` performs exactly `n * (n - 1)` allowance reads and
returns `n` entries in input order; entry `i` carries `accounts[i]`
and exactly `n - 1` allowance records, one per index `j ≠ i` in
increasing order of `j`. -/
theorem getAllowances_all_pairs_shape (st : ChainState) (token : Nat)
    (accounts : List Nat) (htok : token ≠ 0) (hacc : accounts ≠ []) :
    ∃ rows, (getAllowances st token accounts).1 = Except.ok rows ∧
      rows.length = accounts.length ∧
      (getAllowances st token accounts).2.length
          = accounts.length * (accounts.length - 1) ∧
      ∀ i, i < accounts.length →
        rows.getD i default
            = { account := accounts.getD i 0,
                allowances := allowanceRow st token accounts i } ∧
          (allowanceRow st token accounts i).length
              = accounts.length - 1 ∧
          allowanceRow st token accounts i
            = ((List.range accounts.length).filter fun j => i ≠ j).map
                fun j =>
                  { owner := accounts.getD i 0,
                    spender := accounts.getD j 0,
                    allowance := st.allowance token (accounts.getD i 0)
                      (accounts.getD j 0) } := by
  have hacc0 : accounts.length ≠ 0 := by
    simpa [List.length_eq_zero] using hacc
  refine ⟨(List.range accounts.length).map fun i =>
      { account := accounts.getD i 0,
        allowances := allowanceRow st token accounts i }, ?_, ?_, ?_, ?_⟩
  · simp [getAllowances, htok, hacc0]
  · simp
  · have hlog : (getAllowances st token accounts).2
        = (List.range accounts.length).flatMap fun i =>
            allowanceRowReads token accounts i := by
      simp [getAllowances, htok, hacc0]
    rw [hlog, List.flatMap_def, List.length_flatten, List.map_map]
    have hcongr :
        (List.range accounts.length).map
            (List.length ∘ fun i => allowanceRowReads token accounts i)
          = (List.range accounts.length).map
              fun _ => accounts.length - 1 := by
      apply List.map_congr_left
      intro i hi
      have hi2 : i < accounts.length := List.mem_range.mp hi
      simp only [Function.comp_apply]
      unfold allowanceRowReads
      rw [List.length_map]
      exact length_filter_ne_range accounts.length i hi2
    rw [hcongr, sum_const_range]
  · intro i hi
    refine ⟨?_, ?_, rfl⟩
    · rw [getD_map_of_lt _ (List.range accounts.length) i default 0
        (by simpa using hi)]
      rw [getD_range_of_lt accounts.length i 0 hi]
    · unfold allowanceRow
      rw [List.length_map]
      exact length_filter_ne_range accounts.length i hi

/-- Witness for C9: three accounts `1/2/3` on `demoChain`'s token `7`:
three rows and `3 * 2 = 6` allowance reads. -/
theorem getAllowances_all_pairs_shape_witness :
    (7 : Nat) ≠ 0 ∧ ([1, 2, 3] : List Nat) ≠ [] ∧
      (∃ rows, (getAllowances demoChain 7 [1, 2, 3]).1 = Except.ok rows ∧
        rows.length = ([1, 2, 3] : List Nat).length ∧
        (getAllowances demoChain 7 [1, 2, 3]).2.length
            = ([1, 2, 3] : List Nat).length
                * (([1, 2, 3] : List Nat).length - 1) ∧
        ∀ i, i < ([1, 2, 3] : List Nat).length →
          rows.getD i default
              = { account := ([1, 2, 3] : List Nat).getD i 0,
                  allowances := allowanceRow demoChain 7 [1, 2, 3] i } ∧
            (allowanceRow demoChain 7 [1, 2, 3] i).length
                = ([1, 2, 3] : List Nat).length - 1 ∧
            allowanceRow demoChain 7 [1, 2, 3] i
              = ((List.range ([1, 2, 3] : List Nat).length).filter
                    fun j => i ≠ j).map
                  fun j =>
                    { owner := ([1, 2, 3] : List Nat).getD i 0,
                      spender := ([1, 2, 3] : List Nat).getD j 0,
                      allowance := demoChain.allowance 7
                        (([1, 2, 3] : List Nat).getD i 0)
                        (([1, 2, 3] : List Nat).getD j 0) }) :=
  ⟨by decide, by decide,
    getAllowances_all_pairs_shape demoChain 7 [1, 2, 3]
      (by decide) (by decide)⟩

/-- C10: for a non-zero token and non-empty account list, the combined
`getBalancesAndAllowances` query returns exactly the pair of results
that `getBalances` and `getAllowances` return separately against the
same state. -/
theorem getBalancesAndAllowances_combines_queries (st : ChainState)
    (token : Nat) (accounts : List Nat)
    (htok : token ≠ 0) (hacc : accounts ≠ []) :
    ∃ bs rows, (getBalances st token accounts).1 = Except.ok bs ∧
      (getAllowances st token accounts).1 = Except.ok rows ∧
      (getBalancesAndAllowances st token accounts).1
        = Except.ok (bs, rows) := by
  have hacc0 : accounts.length ≠ 0 := by
    simpa [List.length_eq_zero] using hacc
  refine ⟨accounts.map fun a =>
      { account := a, balance := st.balanceOf token a },
    (List.range accounts.length).map fun i =>
      { account := accounts.getD i 0,
        allowances := allowanceRow st token accounts i }, ?_, ?_, ?_⟩
  · simp [getBalances, htok, hacc0]
  · simp [getAllowances, htok, hacc0]
  · simp [getBalancesAndAllowances, htok, hacc0]

/-- Witness for C10: the combined query on `demoChain`, token `7`,
accounts `1/2/3`. -/
theorem getBalancesAndAllowances_combines_queries_witness :
    (7 : Nat) ≠ 0 ∧ ([1, 2, 3] : List Nat) ≠ [] ∧
      (∃ bs rows, (getBalances demoChain 7 [1, 2, 3]).1 = Except.ok bs ∧
        (getAllowances demoChain 7 [1, 2, 3]).1 = Except.ok rows ∧
        (getBalancesAndAllowances demoChain 7 [1, 2, 3]).1
          = Except.ok (bs, rows)) :=
  ⟨by decide, by decide,
    getBalancesAndAllowances_combines_queries demoChain 7 [1, 2, 3]
      (by decide) (by decide)⟩

end CashTracker
